import Mathlib

/-!
# Truffle Pig conversion-model training workflow: a shallow embedding

This file embeds the model-training notebook of the `truffle-pig-dashboard`
repository (data loading/merging, feature encoding, chronological 70/15/15
splitting, Optuna hyperparameter search, final refit and test evaluation,
artifact export) as executable Lean definitions, and proves the spec's
claims about it.

Modelling conventions:
* A pandas frame row that flows through the split/search/refit pipeline is a
  `Row`: its sort key (`session_start`), its label (`converted`), and its
  encoded feature values.
* XGBoost fitting and prediction are external library calls; the pipeline is
  parameterised over an arbitrary `MLOps` record (a fit function that reads
  the training slice and the early-stopping eval slice, a final fit function,
  and a prediction function), so every theorem below holds for *every*
  possible behaviour of the library.  What the embedding fixes is exactly
  which data each call receives, which is what the claims are about.
* `roc_auc_score` is sklearn's: it raises (here: `Except.error`) when
  `y_true` holds a single class, otherwise it returns the Mann-Whitney
  statistic over rational scores.
* Python's `int(0.7 * N)` / `int(0.15 * N)` are embedded as the natural
  floor divisions `7*N/10` / `3*N/20`; for every table size that fits in an
  IEEE double's integer range the float expression rounds to exactly this
  value (the representation error of 0.7 and 0.15 is far below the rounding
  step of the product).
* `sort_values('session_start')` is embedded as a comparison sort by the
  timestamp key (`List.insertionSort`); the claims only depend on the output
  being a time-sorted permutation of the input.
-/

namespace TrufflePig

/-- One XGBoost hyperparameter assignment, the search space of `objective`
(notebook cell 9): `n_estimators`, `learning_rate`, `max_depth`,
`subsample`, `colsample_bytree`, `gamma`. -/
structure Params where
  n_estimators : Nat
  learning_rate : ℚ
  max_depth : Nat
  subsample : ℚ
  colsample_bytree : ℚ
  gamma : ℚ
deriving DecidableEq, Repr

/-- One post-encoding record of `data_df`: the chronological sort key
`session_start`, the target column `converted`, and the encoded feature
values (the `X` row). -/
structure Row where
  session_start : Int
  converted : Bool
  feats : List ℚ
deriving DecidableEq, Repr

/-- `train_size = int(0.7 * len(data_df))` (cell 7). -/
def train_size (n : Nat) : Nat := 7 * n / 10

/-- `tune_size = int(0.15 * len(data_df))` (cell 7). -/
def tune_size (n : Nat) : Nat := 3 * n / 20

/-- The sort key of `data_df.sort_values('session_start')`. -/
def byTime (a b : Row) : Prop := a.session_start ≤ b.session_start

instance : DecidableRel byTime :=
  fun a b => inferInstanceAs (Decidable (a.session_start ≤ b.session_start))

instance : IsTotal Row byTime := ⟨fun a b => Int.le_total a.session_start b.session_start⟩

instance : IsTrans Row byTime := ⟨fun _ _ _ h1 h2 => le_trans h1 h2⟩

/-- `data_df.sort_values('session_start', inplace=True)` (cell 7). -/
def sortByTime (df : List Row) : List Row := List.insertionSort byTime df

/-- `X_train, y_train = X[:train_size], y[:train_size]` (cell 7). -/
def trainSlice (df : List Row) : List Row :=
  (sortByTime df).take (train_size df.length)

/-- `X_tune = X[train_size:train_size + tune_size]` (cell 7). -/
def tuneSlice (df : List Row) : List Row :=
  ((sortByTime df).drop (train_size df.length)).take (tune_size df.length)

/-- `X_test = X[train_size + tune_size:]` (cell 7). -/
def testSlice (df : List Row) : List Row :=
  (sortByTime df).drop (train_size df.length + tune_size df.length)

/-- True when `y_true` contains at most one distinct class (all positives or
all negatives, including the empty case) — the condition under which
sklearn's `roc_auc_score` raises. -/
def singleClass (y : List Bool) : Bool :=
  y.all (fun b => b) || y.all (fun b => !b)

/-- The error sklearn raises for a degenerate `y_true`. -/
def singleClassMsg : String :=
  "ValueError: Only one class present in y_true. ROC AUC score is not defined in that case."

/-- The Mann-Whitney form of the AUC-ROC statistic on the non-degenerate
case: the fraction of (positive, negative) pairs ranked correctly, ties
counting one half. -/
def aucStatistic (y : List Bool) (p : List ℚ) : ℚ :=
  let pairs := y.zip p
  let pos := (pairs.filter (fun t => t.1)).map (fun t => t.2)
  let neg := (pairs.filter (fun t => !t.1)).map (fun t => t.2)
  ((pos.map (fun a =>
      (neg.map (fun b => if b < a then (1 : ℚ) else if b = a then 1/2 else 0)).sum)).sum)
    / ((pos.length : ℚ) * (neg.length : ℚ))

/-- `sklearn.metrics.roc_auc_score(y_true, y_score)`: an error on a
single-class `y_true` (never a default value), the AUC statistic otherwise. -/
def roc_auc_score (y : List Bool) (p : List ℚ) : Except String ℚ :=
  if singleClass y then Except.error singleClassMsg
  else Except.ok (aucStatistic y p)

/-- The external XGBoost calls the notebook makes, left abstract: `fit` is
`model.fit(X_train, y_train, eval_set=[(X_tune, y_tune)], early_stopping_rounds=50)`
(it may read the training slice and the early-stopping eval slice),
`fitFinal` is the final `final_model.fit(X_train_full, y_train_full)` with no
eval set, and `predict_proba` scores one row.  Theorems quantify over every
such record, so they hold regardless of what the library computes. -/
structure MLOps (Model : Type) where
  fit : Params → List Row → List Row → Model
  fitFinal : Params → List Row → Model
  predict_proba : Model → Row → ℚ

/-- The Optuna `objective` (cell 9): fit on the training slice with the
tuning slice as eval set, predict on the tuning slice, return its AUC.
The test slice is not an input. -/
def objective {Model : Type} (ops : MLOps Model) (X_train X_tune : List Row)
    (params : Params) : Except String ℚ :=
  let model := ops.fit params X_train X_tune
  let preds := X_tune.map (ops.predict_proba model)
  roc_auc_score (X_tune.map (fun r => r.converted)) preds

/-- `study.optimize(objective, n_trials=25)` evaluates the objective once per
suggested parameter set, in order; an exception in a trial propagates and
aborts the study (Optuna's default `catch=()`). -/
def runTrials {Model : Type} (ops : MLOps Model) (X_train X_tune : List Row) :
    List Params → Except String (List (Params × ℚ))
  | [] => Except.ok []
  | p :: ps =>
    match objective ops X_train X_tune p with
    | Except.error e => Except.error e
    | Except.ok s =>
      match runTrials ops X_train X_tune ps with
      | Except.error e => Except.error e
      | Except.ok rest => Except.ok ((p, s) :: rest)

/-- Keep the incumbent unless the challenger's value is strictly greater —
Optuna's best-trial update for `direction='maximize'` (ties keep the earlier
trial). -/
def betterOf (b c : Params × ℚ) : Params × ℚ := if b.2 < c.2 then c else b

/-- `study.best_params` / `study.best_value`: the first trial attaining the
maximum observed value. -/
def bestTrial : List (Params × ℚ) → Option (Params × ℚ)
  | [] => none
  | t :: ts => some (ts.foldl betterOf t)

/-- The whole search (cell 9): run the trials on the training and tuning
slices and retain the best completed one. -/
def runStudy {Model : Type} (ops : MLOps Model) (X_train X_tune : List Row)
    (suggested : List Params) : Except String (Params × ℚ) :=
  match runTrials ops X_train X_tune suggested with
  | Except.error e => Except.error e
  | Except.ok results =>
    match bestTrial results with
    | none => Except.error "ValueError: No trials are completed yet."
    | some b => Except.ok b

/-- The search as invoked by the notebook: its data inputs are the training
and tuning slices of the (sorted) table; `suggested` is the samplers'
per-trial randomness. -/
def study_optimize {Model : Type} (ops : MLOps Model) (df : List Row)
    (suggested : List Params) : Except String (Params × ℚ) :=
  runStudy ops (trainSlice df) (tuneSlice df) suggested

/-- `X_train_full = pd.concat([X_train, X_tune])` (cell 11). -/
def X_train_full (df : List Row) : List Row := trainSlice df ++ tuneSlice df

/-- `final_model = xgb.XGBClassifier(**best_params); final_model.fit(X_train_full, y_train_full)`
(cell 11). -/
def final_model {Model : Type} (ops : MLOps Model) (df : List Row)
    (best_params : Params) : Model :=
  ops.fitFinal best_params (X_train_full df)

/-- `test_auc = roc_auc_score(y_test, final_model.predict_proba(X_test)[:, 1])`
(cell 11): the single scoring of the test slice. -/
def test_auc {Model : Type} (ops : MLOps Model) (df : List Row)
    (best_params : Params) : Except String ℚ :=
  let m := final_model ops df best_params
  roc_auc_score ((testSlice df).map (fun r => r.converted))
    ((testSlice df).map (ops.predict_proba m))

/-! ### Column-level view of the frame (cells 7, 13, 15)

Claim C5 is about column names, so here the frame is modelled with its
header: a `Frame` is a column list plus rows of rational values aligned to
it.  Row-slicing a frame never touches the header. -/

/-- A pandas frame, seen as its header plus value rows aligned to it. -/
structure Frame where
  cols : List String
  rows : List (List ℚ)
deriving DecidableEq, Repr

/-- `features_to_exclude` (cell 7), verbatim: note the literal string
`'target'` alongside the separate `col != target` comparison against the
variable `target = 'converted'`. -/
def features_to_exclude : List String :=
  ["session_id", "user_id", "session_start", "campaign_id", "campaign_name",
   "start_date", "target"]

/-- `target = 'converted'` (cell 7). -/
def target : String := "converted"

/-- `features = [col for col in data_df.columns if col not in features_to_exclude and col != target]`
(cell 7). -/
def features (cols : List String) : List String :=
  cols.filter (fun c => !(features_to_exclude.contains c) && c != target)

/-- The value a column selection reads for one row: the row entry at the
column's position in the source header. -/
def cellValue (cols : List String) (r : List ℚ) (c : String) : ℚ :=
  match cols.findIdx? (fun c2 => c2 == c) with
  | some i => r.getD i 0
  | none => 0

/-- `df[cs]`: column projection of a frame. -/
def selectCols (f : Frame) (cs : List String) : Frame :=
  ⟨cs, f.rows.map (fun r => cs.map (fun c => cellValue f.cols r c))⟩

/-- `X = data_df[features]` (cell 7). -/
def featureMatrix (df : Frame) : Frame := selectCols df (features df.cols)

/-- The feature-name list written by `joblib.dump(features, features_path)`
(cell 15). -/
def persisted_features (df : Frame) : List String := features df.cols

/-- The matrix `X_train_full` the final model is fit on (cell 11): the first
`train_size + tune_size` rows of `X` (the concatenation of the train and
tune row-slices), same header as `X`. -/
def fit_matrix (df : Frame) : Frame :=
  ⟨(featureMatrix df).cols,
   (featureMatrix df).rows.take (train_size df.rows.length + tune_size df.rows.length)⟩

/-! ### The loader's left join and the campaign-side encoding (cells 3, 5) -/

/-- A `sessions.csv` record. -/
structure SessionRec where
  session_id : Nat
  user_id : Nat
  campaign_id : Nat
  session_start : Int
  utm_source : String
  utm_medium : String
  converted : Bool
deriving DecidableEq, Repr

/-- A `campaigns.csv` record. -/
structure CampaignRec where
  campaign_id : Nat
  campaign_name : String
  start_date : Int
  spend : ℚ
  creative_format : String
  creative_theme : String
  effectiveness_tier : String
deriving DecidableEq, Repr

/-- A row of the merged table: the session plus its matched campaign, or
`none` where the left join filled the campaign columns with NaN. -/
structure MergedRow where
  session : SessionRec
  campaign : Option CampaignRec
deriving DecidableEq, Repr

/-- `data_df = pd.merge(sessions_df, campaigns_df, on='campaign_id', how='left')`
(cell 3): every session yields one row per matching campaign, and a session
with no match yields one row whose campaign side is NaN — never zero rows. -/
def mergeLeftJoin (ss : List SessionRec) (cs : List CampaignRec) : List MergedRow :=
  ss.flatMap (fun s =>
    match cs.filter (fun c => c.campaign_id == s.campaign_id) with
    | [] => [⟨s, none⟩]
    | ms => ms.map (fun c => ⟨s, some c⟩))

/-- A campaign-side categorical value of a merged row: NaN (`none`) when the
join found no campaign. -/
def campaign_cat (f : CampaignRec → String) (r : MergedRow) : Option String :=
  r.campaign.map f

/-- `data_df['spend'] = data_df['spend'].fillna(0)` (cell 5). -/
def spend_after_fillna (r : MergedRow) : ℚ :=
  (r.campaign.map (fun c => c.spend)).getD 0

/-- The value columns `pd.get_dummies(..., dummy_na=True)` produces for one
categorical value: one indicator per category level. -/
def dummy_columns (cats : List String) (v : Option String) : List Bool :=
  cats.map (fun c => v == some c)

/-- The extra `_nan` indicator column `dummy_na=True` adds: set exactly when
the value is NaN. -/
def dummy_na_col (v : Option String) : Bool := v == none

/-! ### Artifact export (cell 15)

`joblib.dump(final_model, model_path)` and `joblib.dump(features,
features_path)` are two separate sequential writes; each may fail, and a
failure aborts the run at that point.  `DiskState` records which artifacts
the run left on disk. -/

/-- Outcome of one `joblib.dump` call. -/
inductive WriteOutcome
  | success
  | failure
deriving DecidableEq, Repr

/-- Which artifacts an export run left on disk. -/
structure DiskState where
  modelOnDisk : Bool
  featuresOnDisk : Bool
deriving DecidableEq, Repr

/-- The export sequence of cell 15: dump the model, then dump the feature
list; a failing dump aborts the run, leaving exactly the artifacts already
written. -/
def saveArtifacts (o1 o2 : WriteOutcome) : DiskState :=
  match o1 with
  | WriteOutcome.failure => ⟨false, false⟩
  | WriteOutcome.success =>
    match o2 with
    | WriteOutcome.failure => ⟨true, false⟩
    | WriteOutcome.success => ⟨true, true⟩

/-! ### Concrete fixtures used by the witnesses -/

/-- A concrete hyperparameter assignment. -/
def p0 : Params := ⟨200, 1, 3, 1, 1, 0⟩

/-- A second concrete hyperparameter assignment. -/
def p1 : Params := ⟨400, 2, 5, 1, 1, 1⟩

/-- A concrete instantiation of the abstract library calls, used to evaluate
the theorems on concrete inputs: the fitted model carries no information and
prediction reads the first feature. -/
def constOps : MLOps Unit where
  fit := fun _ _ _ => ()
  fitFinal := fun _ _ => ()
  predict_proba := fun _ r => r.feats.headD 0

/-- A seven-row table (train 4 / tune 1 / test 2 after the 70/15/15 split). -/
def dfObserved : List Row :=
  [⟨1, true, [1]⟩, ⟨2, false, [2]⟩, ⟨3, true, [3]⟩, ⟨4, false, [4]⟩,
   ⟨5, true, [5]⟩, ⟨6, false, [6]⟩, ⟨7, true, [7]⟩]

/-- `dfObserved` with its two test-slice rows replaced by different ones;
the train and tune slices are unchanged. -/
def dfVariant : List Row :=
  [⟨1, true, [1]⟩, ⟨2, false, [2]⟩, ⟨3, true, [3]⟩, ⟨4, false, [4]⟩,
   ⟨5, true, [5]⟩, ⟨6, true, [60]⟩, ⟨7, false, [70]⟩]

/-- A three-row table, small enough that its tuning slice is empty. -/
def dfTiny : List Row := [⟨1, true, [1]⟩, ⟨2, false, [2]⟩, ⟨3, true, [3]⟩]

/-- A single-class tuning slice. -/
def tuneOne : List Row := [⟨5, true, [1]⟩]

/-- A two-class tuning slice on which every trial scores AUC 1. -/
def tuneTwo : List Row := [⟨5, true, [2]⟩, ⟨6, false, [1]⟩]

/-! ### Helper lemmas -/

/-- The two leading split sizes never exceed the table size. -/
lemma sizes_le (n : Nat) : train_size n + tune_size n ≤ n := by
  unfold train_size tune_size
  omega

lemma length_sortByTime (df : List Row) : (sortByTime df).length = df.length :=
  List.length_insertionSort byTime df

lemma sorted_sortByTime (df : List Row) : List.Sorted byTime (sortByTime df) :=
  List.sorted_insertionSort byTime df

/-- In a sorted list, everything kept by `take` is below everything kept by
`drop`. -/
lemma sorted_take_drop {l : List Row} (hs : List.Sorted byTime l) (n : Nat) :
    ∀ x ∈ l.take n, ∀ y ∈ l.drop n, byTime x y := by
  rw [← List.take_append_drop n l] at hs
  exact (List.pairwise_append.mp hs).2.2

lemma trainSlice_length (df : List Row) :
    (trainSlice df).length = train_size df.length := by
  unfold trainSlice
  rw [List.length_take, length_sortByTime]
  have h := sizes_le df.length
  omega

lemma tuneSlice_length (df : List Row) :
    (tuneSlice df).length = tune_size df.length := by
  unfold tuneSlice
  rw [List.length_take, List.length_drop, length_sortByTime]
  have h := sizes_le df.length
  omega

lemma testSlice_length (df : List Row) :
    (testSlice df).length = df.length - (train_size df.length + tune_size df.length) := by
  unfold testSlice
  rw [List.length_drop, length_sortByTime]

/-- Floor of a rational scaling of a natural number is natural division. -/
lemma natFloor_mul (a b n : Nat) :
    Nat.floor ((a : ℚ) / b * n) = a * n / b := by
  rw [div_mul_eq_mul_div,
    show ((a : ℚ) * n) = ((a * n : ℕ) : ℚ) by push_cast; ring,
    Nat.floor_div_nat, Nat.floor_natCast]

/-! ### The claims -/

/-- Claim C3: for every input table the chronological splitter produces
three disjoint contiguous slices whose sizes sum to the table size and which
preserve temporal order: the slices concatenated give back the time-sorted
table (a permutation of the input, no shuffling beyond sorting), and every
record of the training slice is no later than every record of the tuning
slice, which is no later than every record of the test slice. -/
theorem claim3_split_partition_and_order (df : List Row) :
    (trainSlice df).length + (tuneSlice df).length + (testSlice df).length = df.length ∧
    trainSlice df ++ (tuneSlice df ++ testSlice df) = sortByTime df ∧
    (sortByTime df).Perm df ∧
    (∀ x ∈ trainSlice df, ∀ y ∈ tuneSlice df, x.session_start ≤ y.session_start) ∧
    (∀ x ∈ trainSlice df, ∀ y ∈ testSlice df, x.session_start ≤ y.session_start) ∧
    (∀ x ∈ tuneSlice df, ∀ y ∈ testSlice df, x.session_start ≤ y.session_start) := by
  have hlen := sizes_le df.length
  have hs := sorted_sortByTime df
  have hdropdrop :
      testSlice df =
        ((sortByTime df).drop (train_size df.length)).drop (tune_size df.length) := by
    unfold testSlice
    rw [List.drop_drop]
  have hsdrop : List.Sorted byTime ((sortByTime df).drop (train_size df.length)) :=
    List.Pairwise.sublist (List.drop_sublist _ _) hs
  refine ⟨?_, ?_, List.perm_insertionSort byTime df, ?_, ?_, ?_⟩
  · rw [trainSlice_length, tuneSlice_length, testSlice_length]
    omega
  · unfold trainSlice tuneSlice
    rw [hdropdrop, List.take_append_drop, List.take_append_drop]
  · intro x hx y hy
    exact sorted_take_drop hs (train_size df.length) x hx y (List.mem_of_mem_take hy)
  · intro x hx y hy
    rw [hdropdrop] at hy
    exact sorted_take_drop hs (train_size df.length) x hx y (List.mem_of_mem_drop hy)
  · intro x hx y hy
    rw [hdropdrop] at hy
    exact sorted_take_drop hsdrop (tune_size df.length) x hx y hy

/-- Concrete evaluation of claim C3 on a seven-row table. -/
theorem claim3_witness :
    (trainSlice dfObserved).length + (tuneSlice dfObserved).length +
        (testSlice dfObserved).length = dfObserved.length ∧
    trainSlice dfObserved ++ (tuneSlice dfObserved ++ testSlice dfObserved) =
        sortByTime dfObserved :=
  ⟨(claim3_split_partition_and_order dfObserved).1,
   (claim3_split_partition_and_order dfObserved).2.1⟩

/-- Claim C4: the training slice has exactly floor(0.70·N) records, the
tuning slice exactly floor(0.15·N), the test slice the remainder, and
N = 1000 yields 700/150/150. -/
theorem claim4_split_sizes (df : List Row) :
    (trainSlice df).length = Nat.floor ((0.70 : ℚ) * df.length) ∧
    (tuneSlice df).length = Nat.floor ((0.15 : ℚ) * df.length) ∧
    (testSlice df).length =
      df.length - (Nat.floor ((0.70 : ℚ) * df.length) + Nat.floor ((0.15 : ℚ) * df.length)) ∧
    (train_size 1000 = 700 ∧ tune_size 1000 = 150 ∧
      1000 - (train_size 1000 + tune_size 1000) = 150) := by
  have h70 : Nat.floor ((0.70 : ℚ) * df.length) = train_size df.length := by
    rw [show (0.70 : ℚ) = ((7 : ℕ) : ℚ) / ((10 : ℕ) : ℚ) by norm_num, natFloor_mul]
    rfl
  have h15 : Nat.floor ((0.15 : ℚ) * df.length) = tune_size df.length := by
    rw [show (0.15 : ℚ) = ((3 : ℕ) : ℚ) / ((20 : ℕ) : ℚ) by norm_num, natFloor_mul]
    rfl
  refine ⟨?_, ?_, ?_, by decide, by decide, by decide⟩
  · rw [h70, trainSlice_length]
  · rw [h15, tuneSlice_length]
  · rw [h70, h15, testSlice_length]

/-- Concrete evaluation of claim C4: the scenario slice sizes at N = 1000. -/
theorem claim4_witness :
    train_size 1000 = 700 ∧ tune_size 1000 = 150 ∧
      1000 - (train_size 1000 + tune_size 1000) = 150 :=
  (claim4_split_sizes dfObserved).2.2.2

/-- Claim C10: for every table with at least one record the test slice is
non-empty (the two leading sizes total at most N − 1); the tuning slice is
empty exactly for N ≤ 6; and nothing guards the empty tuning slice before
scoring — the search then dies inside the per-trial AUC computation with the
single-class error, not in any earlier emptiness check. -/
theorem claim10_degenerate_slices (df : List Row) (h : 1 ≤ df.length) :
    train_size df.length + tune_size df.length + 1 ≤ df.length ∧
    1 ≤ (testSlice df).length ∧
    (tune_size df.length = 0 ↔ df.length ≤ 6) ∧
    (df.length ≤ 6 → tuneSlice df = []) ∧
    (∀ (Model : Type) (ops : MLOps Model) (p : Params) (ps : List Params),
      tuneSlice df = [] →
      study_optimize ops df (p :: ps) = Except.error singleClassMsg) := by
  have hb : train_size df.length + tune_size df.length + 1 ≤ df.length := by
    unfold train_size tune_size
    omega
  refine ⟨hb, ?_, ?_, ?_, ?_⟩
  · rw [testSlice_length]
    omega
  · unfold tune_size
    omega
  · intro h6
    have h0 : tune_size df.length = 0 := by
      unfold tune_size
      omega
    unfold tuneSlice
    rw [h0, List.take_zero]
  · intro Model ops p ps htu
    unfold study_optimize runStudy runTrials objective
    rw [htu]
    simp [roc_auc_score, singleClass]

/-- Concrete evaluation of claim C10 on a three-row table: the test slice is
non-empty, the tuning slice is empty, and a one-trial search aborts with the
single-class error. -/
theorem claim10_witness :
    1 ≤ dfTiny.length ∧
    1 ≤ (testSlice dfTiny).length ∧
    tuneSlice dfTiny = [] ∧
    study_optimize constOps dfTiny [p0] = Except.error singleClassMsg :=
  ⟨by decide,
   (claim10_degenerate_slices dfTiny (by decide)).2.1,
   (claim10_degenerate_slices dfTiny (by decide)).2.2.2.1 (by decide),
   (claim10_degenerate_slices dfTiny (by decide)).2.2.2.2 Unit constOps p0 [] (by decide)⟩

/-- Claim C1: the test slice never influences hyperparameter selection —
two runs of the search that agree on the training and tuning slices and on
the per-trial suggested parameters (the trial randomness) return the same
retained best parameter set, for every possible behaviour of the underlying
fitting library, because the per-trial objective reads only the training
slice and the tuning slice. -/
theorem claim1_test_slice_noninterference {Model : Type} (ops : MLOps Model)
    (df1 df2 : List Row) (suggested : List Params)
    (htrain : trainSlice df1 = trainSlice df2)
    (htune : tuneSlice df1 = tuneSlice df2) :
    study_optimize ops df1 suggested = study_optimize ops df2 suggested := by
  unfold study_optimize
  rw [htrain, htune]

/-- Concrete evaluation of claim C1: two seven-row tables that agree on
their training and tuning slices but differ in their test slices yield the
same search outcome. -/
theorem claim1_witness :
    trainSlice dfObserved = trainSlice dfVariant ∧
    tuneSlice dfObserved = tuneSlice dfVariant ∧
    testSlice dfObserved ≠ testSlice dfVariant ∧
    study_optimize constOps dfObserved [p0] = study_optimize constOps dfVariant [p0] :=
  ⟨by decide, by decide, by decide,
   claim1_test_slice_noninterference constOps dfObserved dfVariant [p0]
     (by decide) (by decide)⟩

/-- Claim C2: the final model is fit, with the winning parameters, on the
concatenation of the training slice followed by the tuning slice — which is
exactly the first `train_size + tune_size` rows of the time-sorted table,
i.e. their union in original chronological order — and the reported test AUC
is the single scoring of the untouched test slice (the remainder of the
sorted table) by that already-fitted model; the model the run ends with is
the one fitted before that evaluation, so nothing is retrained after it. -/
theorem claim2_final_refit_and_single_test_scoring {Model : Type} (ops : MLOps Model)
    (df : List Row) (best_params : Params) :
    X_train_full df =
      (sortByTime df).take (train_size df.length + tune_size df.length) ∧
    X_train_full df ++ testSlice df = sortByTime df ∧
    final_model ops df best_params = ops.fitFinal best_params (X_train_full df) ∧
    test_auc ops df best_params =
      roc_auc_score ((testSlice df).map (fun r => r.converted))
        ((testSlice df).map (ops.predict_proba (final_model ops df best_params))) := by
  have hfull : X_train_full df =
      (sortByTime df).take (train_size df.length + tune_size df.length) := by
    unfold X_train_full trainSlice tuneSlice
    exact (List.take_add _ _ _).symm
  refine ⟨hfull, ?_, rfl, rfl⟩
  rw [hfull]
  unfold testSlice
  exact List.take_append_drop _ _

/-- Concrete evaluation of claim C2 on a seven-row table. -/
theorem claim2_witness :
    X_train_full dfObserved =
      (sortByTime dfObserved).take (train_size dfObserved.length + tune_size dfObserved.length) ∧
    X_train_full dfObserved ++ testSlice dfObserved = sortByTime dfObserved :=
  ⟨(claim2_final_refit_and_single_test_scoring constOps dfObserved p0).1,
   (claim2_final_refit_and_single_test_scoring constOps dfObserved p0).2.1⟩

/-- Claim C6: when the tuning slice carries a single class of the outcome
flag, every trial's AUC computation signals the single-class error — no
trial ever returns a default or coerced score — and the error aborts any
study with at least one trial. -/
theorem claim6_single_class_tuning_error {Model : Type} (ops : MLOps Model)
    (X_train X_tune : List Row)
    (h : singleClass (X_tune.map (fun r => r.converted)) = true) :
    (∀ params, objective ops X_train X_tune params = Except.error singleClassMsg) ∧
    (∀ params (s : ℚ), objective ops X_train X_tune params ≠ Except.ok s) ∧
    (∀ p ps, runStudy ops X_train X_tune (p :: ps) = Except.error singleClassMsg) := by
  have hobj : ∀ params, objective ops X_train X_tune params = Except.error singleClassMsg := by
    intro params
    unfold objective roc_auc_score
    rw [h]
    rfl
  refine ⟨hobj, ?_, ?_⟩
  · intro params s hcon
    rw [hobj params] at hcon
    exact Except.noConfusion hcon
  · intro p ps
    unfold runStudy runTrials
    rw [hobj p]

/-- Concrete evaluation of claim C6 on an all-positive tuning slice. -/
theorem claim6_witness :
    singleClass (tuneOne.map (fun r => r.converted)) = true ∧
    objective constOps [] tuneOne p0 = Except.error singleClassMsg ∧
    runStudy constOps [] tuneOne [p0] = Except.error singleClassMsg :=
  ⟨by decide,
   (claim6_single_class_tuning_error constOps [] tuneOne (by decide)).1 p0,
   (claim6_single_class_tuning_error constOps [] tuneOne (by decide)).2.2 p0 []⟩

/-- The incumbent/challenger fold splits its input around its result: the
result is the first element attaining the maximum value. -/
lemma foldl_betterOf_spec (ts : List (Params × ℚ)) (t : Params × ℚ) :
    ∃ l₁ l₂, t :: ts = l₁ ++ (ts.foldl betterOf t) :: l₂ ∧
      (∀ x ∈ l₁, x.2 < (ts.foldl betterOf t).2) ∧
      (∀ x ∈ t :: ts, x.2 ≤ (ts.foldl betterOf t).2) := by
  induction ts generalizing t with
  | nil =>
    refine ⟨[], [], rfl, by simp, ?_⟩
    intro x hx
    rw [List.mem_singleton] at hx
    subst hx
    exact le_refl _
  | cons c cs ih =>
    have hfold : (c :: cs).foldl betterOf t = cs.foldl betterOf (betterOf t c) := rfl
    by_cases h : t.2 < c.2
    · have hb : betterOf t c = c := by
        unfold betterOf
        rw [if_pos h]
      rw [hfold, hb]
      obtain ⟨l₁, l₂, hdec, hlt, hle⟩ := ih c
      have hcr : c.2 ≤ (cs.foldl betterOf c).2 := hle c (List.mem_cons_self c cs)
      refine ⟨t :: l₁, l₂, ?_, ?_, ?_⟩
      · rw [List.cons_append, ← hdec]
      · intro x hx
        rcases List.mem_cons.mp hx with hx | hx
        · subst hx
          exact lt_of_lt_of_le h hcr
        · exact hlt x hx
      · intro x hx
        rcases List.mem_cons.mp hx with hx | hx
        · subst hx
          exact le_of_lt (lt_of_lt_of_le h hcr)
        · exact hle x hx
    · have hb : betterOf t c = t := by
        unfold betterOf
        rw [if_neg h]
      rw [hfold, hb]
      have hct : c.2 ≤ t.2 := le_of_not_lt h
      obtain ⟨l₁, l₂, hdec, hlt, hle⟩ := ih t
      cases l₁ with
      | nil =>
        rw [List.nil_append] at hdec
        have ht : t = cs.foldl betterOf t := (List.cons.injEq _ _ _ _ ▸ hdec).1
        have hcs : cs = l₂ := (List.cons.injEq _ _ _ _ ▸ hdec).2
        refine ⟨[], c :: cs, ?_, by simp, ?_⟩
        · rw [List.nil_append, ← ht]
        · intro x hx
          rcases List.mem_cons.mp hx with hx | hx
          · subst hx
            rw [← ht]
          · rcases List.mem_cons.mp hx with hx | hx
            · subst hx
              rw [← ht]
              exact hct
            · exact hle x (List.mem_cons_of_mem t hx)
      | cons a l₁ =>
        rw [List.cons_append] at hdec
        have hta : t = a := (List.cons.injEq _ _ _ _ ▸ hdec).1
        have hcs : cs = l₁ ++ (cs.foldl betterOf t) :: l₂ :=
          (List.cons.injEq _ _ _ _ ▸ hdec).2
        have htr : t.2 < (cs.foldl betterOf t).2 := by
          have ha := hlt a (List.mem_cons_self a l₁)
          rw [← hta] at ha
          exact ha
        refine ⟨t :: c :: l₁, l₂, ?_, ?_, ?_⟩
        · rw [List.cons_append, List.cons_append, ← hcs]
        · intro x hx
          rcases List.mem_cons.mp hx with hx | hx
          · subst hx
            exact htr
          · rcases List.mem_cons.mp hx with hx | hx
            · subst hx
              exact lt_of_le_of_lt hct htr
            · exact hlt x (List.mem_cons_of_mem a hx)
        · intro x hx
          rcases List.mem_cons.mp hx with hx | hx
          · subst hx
            exact le_of_lt htr
          · rcases List.mem_cons.mp hx with hx | hx
            · subst hx
              exact le_of_lt (lt_of_le_of_lt hct htr)
            · exact hle x (List.mem_cons_of_mem t hx)

/-- `bestTrial` returns the first trial attaining the maximum value. -/
lemma bestTrial_spec (results : List (Params × ℚ)) (best : Params × ℚ)
    (h : bestTrial results = some best) :
    ∃ l₁ l₂, results = l₁ ++ best :: l₂ ∧
      (∀ x ∈ l₁, x.2 < best.2) ∧ (∀ x ∈ results, x.2 ≤ best.2) := by
  cases results with
  | nil => exact absurd h (by simp [bestTrial])
  | cons t ts =>
    unfold bestTrial at h
    rw [Option.some.injEq] at h
    rw [← h]
    exact foldl_betterOf_spec ts t

/-- Every suggested parameter set whose objective evaluation succeeds shows
up with its score in the completed-trials list. -/
lemma runTrials_mem {Model : Type} (ops : MLOps Model) (X_train X_tune : List Row) :
    ∀ (suggested : List Params) (results : List (Params × ℚ)),
      runTrials ops X_train X_tune suggested = Except.ok results →
      ∀ p ∈ suggested, ∀ s : ℚ, objective ops X_train X_tune p = Except.ok s →
        (p, s) ∈ results := by
  intro suggested
  induction suggested with
  | nil =>
    intro results _ p hp
    exact absurd hp (List.not_mem_nil p)
  | cons q qs ih =>
    intro results h p hp s hs
    unfold runTrials at h
    cases hq : objective ops X_train X_tune q with
    | error e =>
      rw [hq] at h
      exact Except.noConfusion h
    | ok s0 =>
      rw [hq] at h
      cases hrest : runTrials ops X_train X_tune qs with
      | error e =>
        rw [hrest] at h
        exact Except.noConfusion h
      | ok rest =>
        rw [hrest] at h
        rw [Except.ok.injEq] at h
        rw [← h]
        rcases List.mem_cons.mp hp with hpq | hpqs
        · subst hpq
          have hss : s0 = s := by
            rw [hq, Except.ok.injEq] at hs
            exact hs
          rw [hss]
          exact List.mem_cons_self _ _
        · exact List.mem_cons_of_mem _ (ih rest hrest p hpqs s hs)

/-- Claim C7: when the search completes, its retained trial scores at least
as high on the tuning slice as every parameter set it evaluated under the
same fit-on-train-with-early-stopping-then-score-on-tune protocol, and among
trials with equal maximum AUC the first-found one is the one retained. -/
theorem claim7_search_dominates_evaluated_baselines {Model : Type} (ops : MLOps Model)
    (X_train X_tune : List Row) (suggested : List Params) (best : Params × ℚ)
    (h : runStudy ops X_train X_tune suggested = Except.ok best) :
    (∀ pbase ∈ suggested, ∀ sbase : ℚ,
      objective ops X_train X_tune pbase = Except.ok sbase → sbase ≤ best.2) ∧
    (∃ results l₁ l₂,
      runTrials ops X_train X_tune suggested = Except.ok results ∧
      results = l₁ ++ best :: l₂ ∧ ∀ x ∈ l₁, x.2 < best.2) := by
  unfold runStudy at h
  split at h
  · exact Except.noConfusion h
  · rename_i results hrt
    split at h
    · exact Except.noConfusion h
    · rename_i b hbt
      rw [Except.ok.injEq] at h
      rw [← h]
      obtain ⟨l₁, l₂, hdec, hlt, hle⟩ := bestTrial_spec results b hbt
      refine ⟨?_, results, l₁, l₂, hrt, hdec, hlt⟩
      intro pbase hp sbase hobj
      exact hle (pbase, sbase) (runTrials_mem ops X_train X_tune suggested results hrt pbase hp sbase hobj)

/-- Every trial on `tuneTwo` scores AUC 1 under `constOps`. -/
lemma objective_tuneTwo (params : Params) :
    objective constOps [] tuneTwo params = Except.ok 1 := by
  norm_num [objective, constOps, tuneTwo, roc_auc_score, singleClass, aucStatistic]

/-- The two-trial study on `tuneTwo` completes and retains the first trial. -/
lemma runStudy_tuneTwo :
    runStudy constOps [] tuneTwo [p0, p1] = Except.ok (p0, 1) := by
  simp [runStudy, runTrials, objective_tuneTwo, bestTrial, betterOf]

/-- Concrete evaluation of claim C7: on a two-class tuning slice both trials
score AUC 1, the tie goes to the first trial, and the second trial's score
is bounded by the retained one. -/
theorem claim7_witness :
    runStudy constOps [] tuneTwo [p0, p1] = Except.ok (p0, 1) ∧
    objective constOps [] tuneTwo p1 = Except.ok 1 ∧
    (1 : ℚ) ≤ ((p0, (1 : ℚ)).2) :=
  ⟨runStudy_tuneTwo, objective_tuneTwo p1,
   (claim7_search_dominates_evaluated_baselines constOps [] tuneTwo [p0, p1] (p0, 1)
     runStudy_tuneTwo).1 p1 (by decide) 1 (objective_tuneTwo p1)⟩

/-- Claim C5: whenever the encoded table's header has no duplicate column
names, the persisted feature-name list has no duplicates, it is exactly (in
the same order) the column list of the matrix the final model was fit on,
and every identifier, timestamp and outcome column of the exclusion set is
absent from it. -/
theorem claim5_feature_list_invariants (df : Frame) (h : df.cols.Nodup) :
    (persisted_features df).Nodup ∧
    persisted_features df = (fit_matrix df).cols ∧
    (∀ c ∈ features_to_exclude, c ∉ persisted_features df) ∧
    target ∉ persisted_features df := by
  refine ⟨h.filter _, rfl, ?_, ?_⟩
  · intro c hc hmem
    unfold persisted_features features at hmem
    rw [List.mem_filter] at hmem
    have hcond := hmem.2
    simp at hcond
    exact hcond.1 hc
  · intro hmem
    unfold persisted_features features at hmem
    rw [List.mem_filter] at hmem
    have hcond := hmem.2
    simp at hcond

/-- A concrete post-encoding header. -/
def demoFrame : Frame :=
  ⟨["session_id", "user_id", "campaign_id", "session_start", "campaign_name",
    "start_date", "converted", "spend", "hour_of_day", "day_of_week", "month",
    "utm_source_google", "utm_source_nan"], []⟩

/-- Concrete evaluation of claim C5 on a thirteen-column header. -/
theorem claim5_witness :
    demoFrame.cols.Nodup ∧
    (persisted_features demoFrame).Nodup ∧
    persisted_features demoFrame = (fit_matrix demoFrame).cols ∧
    target ∉ persisted_features demoFrame :=
  ⟨by decide,
   (claim5_feature_list_invariants demoFrame (by decide)).1,
   (claim5_feature_list_invariants demoFrame (by decide)).2.1,
   (claim5_feature_list_invariants demoFrame (by decide)).2.2.2⟩

/-- Claim C8: a session whose campaign identifier matches no campaign record
is not dropped by the left join: it appears in the merged table as a row
with a NaN campaign side, its spend feature after `fillna` is 0, and for
every campaign-side categorical its encoding sets the NaN dummy column and
leaves every value column unset. -/
theorem claim8_unmatched_session_kept {ss : List SessionRec} {cs : List CampaignRec}
    {s : SessionRec} (hmem : s ∈ ss)
    (hnomatch : ∀ c ∈ cs, c.campaign_id ≠ s.campaign_id) :
    (⟨s, none⟩ : MergedRow) ∈ mergeLeftJoin ss cs ∧
    spend_after_fillna ⟨s, none⟩ = 0 ∧
    (∀ f : CampaignRec → String, dummy_na_col (campaign_cat f ⟨s, none⟩) = true) ∧
    (∀ (f : CampaignRec → String) (cats : List String),
      ∀ b ∈ dummy_columns cats (campaign_cat f ⟨s, none⟩), b = false) := by
  have hfilter : cs.filter (fun c => c.campaign_id == s.campaign_id) = [] := by
    rw [List.filter_eq_nil_iff]
    intro c hc
    simpa using hnomatch c hc
  refine ⟨?_, rfl, fun f => rfl, ?_⟩
  · unfold mergeLeftJoin
    rw [List.mem_flatMap]
    refine ⟨s, hmem, ?_⟩
    rw [hfilter]
    exact List.mem_singleton.mpr rfl
  · intro f cats b hb
    unfold dummy_columns campaign_cat at hb
    rw [List.mem_map] at hb
    obtain ⟨c, _, hc⟩ := hb
    rw [← hc]
    rfl

/-- A concrete session with no matching campaign. -/
def sessUnmatched : SessionRec := ⟨10, 20, 99, 5, "google", "cpc", true⟩

/-- A concrete campaign with a different identifier. -/
def campOther : CampaignRec := ⟨1, "spring_push", 0, 100, "video", "funny", "high"⟩

/-- Concrete evaluation of claim C8: the unmatched session survives the
join with zero spend and a set NaN dummy. -/
theorem claim8_witness :
    (⟨sessUnmatched, none⟩ : MergedRow) ∈ mergeLeftJoin [sessUnmatched] [campOther] ∧
    spend_after_fillna ⟨sessUnmatched, none⟩ = 0 ∧
    dummy_na_col (campaign_cat (fun c => c.creative_format) ⟨sessUnmatched, none⟩) = true :=
  ⟨(@claim8_unmatched_session_kept [sessUnmatched] [campOther] sessUnmatched
      (List.mem_singleton.mpr rfl) (by decide)).1,
   (@claim8_unmatched_session_kept [sessUnmatched] [campOther] sessUnmatched
      (List.mem_singleton.mpr rfl) (by decide)).2.1,
   (@claim8_unmatched_session_kept [sessUnmatched] [campOther] sessUnmatched
      (List.mem_singleton.mpr rfl) (by decide)).2.2.1
     (fun c => c.creative_format)⟩

/-- Claim C9 as stated is false of the code: the export is two separate
sequential `joblib.dump` calls, so the outcome in which the model dump
succeeds and the feature-list dump fails leaves the model artifact on disk
without its matching feature-list artifact. -/
theorem claim9_counterexample :
    (saveArtifacts WriteOutcome.success WriteOutcome.failure).modelOnDisk = true ∧
    (saveArtifacts WriteOutcome.success WriteOutcome.failure).featuresOnDisk = false :=
  ⟨rfl, rfl⟩

/-- Claim C9 amended: the exporter persists the model and then the feature
list as two sequential writes — a fully successful export leaves both
artifacts, a failure of the first write leaves neither, but a failure of the
second write leaves the model without its feature list; the pair is not
written atomically. -/
theorem claim9_sequential_export (o : WriteOutcome) :
    saveArtifacts WriteOutcome.success WriteOutcome.success = ⟨true, true⟩ ∧
    saveArtifacts WriteOutcome.failure o = ⟨false, false⟩ ∧
    saveArtifacts WriteOutcome.success WriteOutcome.failure = ⟨true, false⟩ := by
  cases o with
  | success => exact ⟨rfl, rfl, rfl⟩
  | failure => exact ⟨rfl, rfl, rfl⟩

/-- Concrete evaluation of the amended claim C9 at a failing first write. -/
theorem claim9_witness :
    saveArtifacts WriteOutcome.failure WriteOutcome.failure = ⟨false, false⟩ :=
  (claim9_sequential_export WriteOutcome.failure).2.1

end TrufflePig
